import Mathlib

/-!
Shallow embedding of the SeePitch voice-pitch visualizer core:
the note/frequency converter (src/utils/noteConverter.js), the YIN
pitch detector (the PitchDetector class), and the canvas renderer
(the CanvasRenderer class: rolling window, auto-ranging, gap-tolerant
polyline reconstruction, zoom/pan, display modes).  JS numbers are
modelled as real numbers; JS `null` as `Option.none`; JS truthiness of
a number-or-null value as "is `some f` with `f ≠ 0`".
-/

open scoped Classical

noncomputable section

namespace SeePitch

/-- JS `Math.round`: round half toward positive infinity. -/
def jsRound (x : ℝ) : ℤ := ⌊x + 1 / 2⌋

/-! ## Note/Frequency Converter (noteConverter.js) -/

def NOTE_NAMES : List String :=
  ["C", "C#", "D", "D#", "E", "F"] ++ ["F#", "G", "G#", "A", "A#", "B"]

/-- `hzToMidi(frequency) = 12 * Math.log2(frequency / 440) + 69`. -/
def hzToMidi (frequency : ℝ) : ℝ := 12 * Real.logb 2 (frequency / 440) + 69

/-- `midiToHz(midiNumber) = 440 * Math.pow(2, (midiNumber - 69) / 12)`. -/
def midiToHz (midiNumber : ℝ) : ℝ := 440 * Real.rpow 2 ((midiNumber - 69) / 12)

/-- One entry of the array built by `getNoteRange`. -/
structure NoteInfo where
  note : Option String
  octave : ℤ
  frequency : ℝ
  midiNumber : ℤ

/-- The body of `getNoteRange`'s loop at index `midi`:
`noteIndex = midi % 12` (JS `%` truncates toward zero, so a negative
index reads `undefined` out of `NOTE_NAMES`, modelled as `none`),
`octave = Math.floor(midi / 12) - 1`,
`frequency = 440 * Math.pow(2, (midi - 69) / 12)`. -/
def noteInfoOf (midi : ℤ) : NoteInfo :=
  let noteIndex := Int.tmod midi 12
  { note := if noteIndex < 0 then none else NOTE_NAMES.get? noteIndex.toNat
    octave := Int.fdiv midi 12 - 1
    frequency := 440 * Real.rpow 2 (((midi : ℝ) - 69) / 12)
    midiNumber := midi }

/-- `getNoteRange(minMidiNumber, maxMidiNumber)`: the loop
`for (let midi = min; midi <= max; midi++) notes.push(...)`,
for integer arguments. -/
def getNoteRange (minMidiNumber maxMidiNumber : ℤ) : List NoteInfo :=
  (List.range (maxMidiNumber + 1 - minMidiNumber).toNat).map
    (fun i : ℕ => noteInfoOf (minMidiNumber + (i : ℤ)))

/-! ## Pitch Detector (the PitchDetector class, YIN algorithm) -/

/-- Cross-call state of the `PitchDetector` class: the constructor
arguments/fields that `detectPitch` reads or writes. -/
structure DetState where
  sampleRate : ℝ
  threshold : ℝ
  smoothingFactor : ℝ
  lastPitch : Option ℝ

/-- `new PitchDetector(sampleRate)`: threshold 0.15, smoothing 0.3,
`lastPitch = null`. -/
def initDetector (sampleRate : ℝ) : DetState :=
  { sampleRate := sampleRate, threshold := 0.15, smoothingFactor := 0.3,
    lastPitch := none }

/-- `_differenceFunction(buffer)`: for each `tau` below
`buffer.length / 2`, `sum over i < buffer.length / 2` of
`(buffer[i] - buffer[i + tau])^2`. -/
def differenceFunction (buffer : List ℝ) : List ℝ :=
  (List.range (buffer.length / 2)).map fun tau =>
    ∑ i ∈ Finset.range (buffer.length / 2),
      (buffer.getD i 0 - buffer.getD (i + tau) 0) ^ 2

/-- `_cumulativeMeanNormalizedDifference(yinBuffer)`: `cmndf[0] = 1`;
for `tau ≥ 1`, `cmndf[tau] = yinBuffer[tau] / (runningSum / tau)` where
`runningSum` is the sum of `yinBuffer[1..tau]`. -/
def cmndf (yinBuffer : List ℝ) : List ℝ :=
  (List.range yinBuffer.length).map fun tau =>
    if tau = 0 then 1
    else yinBuffer.getD tau 0 /
      ((∑ j ∈ Finset.Icc 1 tau, yinBuffer.getD j 0) / tau)

/-- The inner `while (tau + 1 < cmndf.length && cmndf[tau+1] < cmndf[tau]) tau++`
walk of `_absoluteThreshold`: settle on the local minimum. -/
def localMin (c : List ℝ) (tau : ℕ) : ℕ :=
  if h : tau + 1 < c.length ∧ c.getD (tau + 1) 0 < c.getD tau 0 then
    localMin c (tau + 1)
  else tau
termination_by c.length - tau
decreasing_by omega

/-- `_absoluteThreshold(cmndf)`: scan `tau` from
`Math.floor(sampleRate / 1000)` upward for the first `cmndf[tau] <
threshold`, then walk to the local minimum; `-1` (here `none`) if no
candidate is found. -/
def absoluteThreshold (st : DetState) (c : List ℝ) : Option ℕ :=
  let minTau := (⌊st.sampleRate / 1000⌋).toNat
  match (List.range' minTau (c.length - minTau)).find?
      (fun tau => decide (c.getD tau 0 < st.threshold)) with
  | some tau => some (localMin c tau)
  | none => none

/-- `_parabolicInterpolation(cmndf, tau)`:
`tau + (s2 - s0) / (2 * (2*s1 - s2 - s0))`, skipped at the edges. -/
def parabolicInterpolation (c : List ℝ) (tau : ℕ) : ℝ :=
  if tau = 0 ∨ tau = c.length - 1 then tau
  else
    let s0 := c.getD (tau - 1) 0
    let s1 := c.getD tau 0
    let s2 := c.getD (tau + 1) 0
    tau + (s2 - s0) / (2 * (2 * s1 - s2 - s0))

/-- The raw (pre-smoothing) estimate of `_detectPitchYIN`: the value of
`pitch = sampleRate / betterTau` after the plausibility filter
`if (pitch < 50 || pitch > 2000) return null`, before smoothing. -/
def rawPitch (st : DetState) (buffer : List ℝ) : Option ℝ :=
  let c := cmndf (differenceFunction buffer)
  match absoluteThreshold st c with
  | none => none
  | some tau =>
    let pitch := st.sampleRate / parabolicInterpolation c tau
    if pitch < 50 ∨ 2000 < pitch then none else some pitch

/-- `_detectPitchYIN(buffer)`: the four YIN stages, the [50, 2000]
plausibility filter, then the IIR smoothing step
`pitch = lastPitch * smoothingFactor + pitch * (1 - smoothingFactor)`
(when `lastPitch !== null`) and the store `lastPitch = pitch`.
Returns the result together with the updated state. -/
def detectPitchYIN (st : DetState) (buffer : List ℝ) : Option ℝ × DetState :=
  let c := cmndf (differenceFunction buffer)
  match absoluteThreshold st c with
  | none => (none, st)
  | some tau =>
    let pitch := st.sampleRate / parabolicInterpolation c tau
    if pitch < 50 ∨ 2000 < pitch then (none, st)
    else
      match st.lastPitch with
      | some l =>
        let p := l * st.smoothingFactor + pitch * (1 - st.smoothingFactor)
        (some p, { st with lastPitch := some p })
      | none => (some pitch, { st with lastPitch := some pitch })

/-- `detectPitch(buffer)` (no analyser, so the FFT branch is skipped and
`pitch = this._detectPitchYIN(buffer)`): the wrapper's own
`[50, 2000]` filter, second smoothing step and store, each guarded by
JS truthiness of `pitch`. -/
def detectPitch (st : DetState) (buffer : List ℝ) : Option ℝ × DetState :=
  match detectPitchYIN st buffer with
  | (none, st1) => (none, st1)
  | (some p, st1) =>
    if p ≠ 0 ∧ (p < 50 ∨ 2000 < p) then (none, st1)
    else
      let p2 := if p ≠ 0 ∧ st1.lastPitch ≠ none then
          st1.lastPitch.getD 0 * st1.smoothingFactor +
            p * (1 - st1.smoothingFactor)
        else p
      if p2 ≠ 0 then (some p2, { st1 with lastPitch := some p2 })
      else (some p2, st1)

/-- `setSmoothingFactor(factor)`: clamp to [0, 1]. -/
def setSmoothingFactor (st : DetState) (factor : ℝ) : DetState :=
  { st with smoothingFactor := max 0 (min 1 factor) }

/-- `reset()`: clear the smoothing state. -/
def resetDetector (st : DetState) : DetState := { st with lastPitch := none }

/-- Invariant of detector states reachable in the application: the
stored smoothed pitch lies in the plausible band [50, 2000] and the
smoothing factor is a convex weight (the constructor sets 0.3 and
`setSmoothingFactor` clamps to [0, 1]). -/
def detInv (st : DetState) : Prop :=
  (∀ v, st.lastPitch = some v → 50 ≤ v ∧ v ≤ 2000) ∧
    0 ≤ st.smoothingFactor ∧ st.smoothingFactor ≤ 1

/-- The value `_detectPitchYIN` stores and returns for an accepted raw
estimate `f`: the IIR step over the stored pitch when one exists,
otherwise `f` itself. -/
def smoothOf (st : DetState) (f : ℝ) : ℝ :=
  match st.lastPitch with
  | some l => l * st.smoothingFactor + f * (1 - st.smoothingFactor)
  | none => f

/-- A detector state for concrete evaluations: 2000 Hz sample rate,
constructor threshold and smoothing, a stored pitch of 100 Hz. -/
def stEx : DetState :=
  { sampleRate := 2000, threshold := 0.15, smoothingFactor := 0.3,
    lastPitch := some 100 }

/-- A period-2 test buffer (N = 8, so the analysis window is 4). -/
def bufEx : List ℝ := [1, -1, 1, -1, 1, -1, 1, -1]

/-- A short buffer (N = 4) whose analysis window is exhausted before
the minimum period, so no pitch is detected. -/
def bufNone : List ℝ := [1, -1, 1, -1]

/-! ## Canvas Renderer (the CanvasRenderer class) -/

/-- One element of `pitchData`: `{ frequency, timestamp }`,
`frequency = null` denoting an unvoiced frame. -/
structure Sample where
  frequency : Option ℝ
  timestamp : ℝ

/-- The data-model fields of the `CanvasRenderer` class (the canvas
handle, device pixel ratio and colors are rasterizer-only and carry no
visualization state). -/
structure Renderer where
  width : ℝ
  height : ℝ
  timeWindow : ℝ
  minMidiNote : ℝ
  maxMidiNote : ℝ
  autoRangeEnabled : Bool
  hasAutoRanged : Bool
  autoRangeSamples : List ℝ
  autoRangeSampleCount : ℕ
  pitchData : List Sample
  maxDataPoints : ℕ
  gapThreshold : ℕ
  mode : String
  targetFrequency : Option ℝ
  rangeMin : Option ℝ
  rangeMax : Option ℝ

/-- The `CanvasRenderer` constructor's field values (width/height are 0
until `resize` reads the window size). -/
def initialRenderer : Renderer :=
  { width := 0, height := 0, timeWindow := 10, minMidiNote := 48,
    maxMidiNote := 84, autoRangeEnabled := true, hasAutoRanged := false,
    autoRangeSamples := [], autoRangeSampleCount := 10, pitchData := [],
    maxDataPoints := 600, gapThreshold := 3, mode := "normal",
    targetFrequency := none, rangeMin := none, rangeMax := none }

/-- `performAutoRange()`: average the collected samples, convert to
MIDI, set a 3-octave (36-semitone) window rounded to integers. -/
def performAutoRange (r : Renderer) : Renderer :=
  if r.autoRangeSamples.length = 0 then r
  else
    let avgFreq := r.autoRangeSamples.sum / r.autoRangeSamples.length
    let centerMidi := hzToMidi avgFreq
    { r with
      minMidiNote := (jsRound (centerMidi - 36 / 2) : ℝ),
      maxMidiNote := (jsRound (centerMidi + 36 / 2) : ℝ) }

/-- The auto-range block at the top of `addPitchData`:
`if (frequency && autoRangeEnabled && !hasAutoRanged)` (JS truthiness:
non-null and nonzero) push the frequency onto `autoRangeSamples`, and
once `autoRangeSamples.length >= autoRangeSampleCount`, run
`performAutoRange()` and set `hasAutoRanged = true`. -/
def autoRangeStage (r : Renderer) (frequency : Option ℝ) : Renderer :=
  match frequency with
  | some f =>
    if f ≠ 0 ∧ r.autoRangeEnabled = true ∧ r.hasAutoRanged = false then
      let r' := { r with autoRangeSamples := r.autoRangeSamples ++ [f] }
      if r.autoRangeSampleCount ≤ r'.autoRangeSamples.length then
        { performAutoRange r' with hasAutoRanged := true }
      else r'
    else r
  | none => r

/-- `this.pitchData.push({ frequency, timestamp })`. -/
def pushStage (r : Renderer) (frequency : Option ℝ) (timestamp : ℝ) :
    Renderer :=
  { r with
    pitchData := r.pitchData ++
      [({ frequency := frequency, timestamp := timestamp } : Sample)] }

/-- The range-mode tracking block of `addPitchData`:
`if (frequency && mode === 'range')` update the running min/max. -/
def rangeTrackStage (r : Renderer) (frequency : Option ℝ) : Renderer :=
  match frequency with
  | some f =>
    if f ≠ 0 ∧ r.mode = "range" then
      { r with
        rangeMin :=
          (match r.rangeMin with
          | none => some f
          | some m => if f < m then some f else some m)
        rangeMax :=
          (match r.rangeMax with
          | none => some f
          | some m => if m < f then some f else some m) }
    else r
  | none => r

/-- The trim at the end of `addPitchData`: keep only samples with
`timestamp > cutoffTime` where `cutoffTime = timestamp - timeWindow * 1000`. -/
def trimStage (r : Renderer) (timestamp : ℝ) : Renderer :=
  let cutoffTime := timestamp - r.timeWindow * 1000
  { r with
    pitchData :=
      r.pitchData.filter (fun d => decide (cutoffTime < d.timestamp)) }

/-- `addPitchData(frequency)` with the call's `performance.now()` value
passed explicitly: the auto-range block, the push, the range-mode
min/max tracking, and the time-window trim, in source order. -/
def addPitchData (r : Renderer) (frequency : Option ℝ) (timestamp : ℝ) :
    Renderer :=
  trimStage
    (rangeTrackStage (pushStage (autoRangeStage r frequency) frequency timestamp)
      frequency)
    timestamp

/-- `clearData()`: empty the window, the range accumulators, and the
auto-range state. -/
def clearData (r : Renderer) : Renderer :=
  { r with
    pitchData := []
    rangeMin := none
    rangeMax := none
    hasAutoRanged := false
    autoRangeSamples := [] }

/-- `frequencyToY(frequency)`: linear in semitone space, inverted. -/
def frequencyToY (r : Renderer) (frequency : ℝ) : ℝ :=
  let midiNote := hzToMidi frequency
  let noteRange := r.maxMidiNote - r.minMidiNote
  let normalizedPosition := (midiNote - r.minMidiNote) / noteRange
  r.height - normalizedPosition * r.height

/-- `setTimeWindow(seconds)`. -/
def setTimeWindow (r : Renderer) (seconds : ℝ) : Renderer :=
  { r with timeWindow := seconds, maxDataPoints := (⌈seconds * 60⌉).toNat }

/-- `setMode(mode)`: store the mode; entering any non-range mode clears
the range accumulators. -/
def setMode (r : Renderer) (mode : String) : Renderer :=
  let r1 := { r with mode := mode }
  if mode ≠ "range" then { r1 with rangeMin := none, rangeMax := none }
  else r1

/-- `setTargetFrequency(frequency)`. -/
def setTargetFrequency (r : Renderer) (frequency : Option ℝ) : Renderer :=
  { r with targetFrequency := frequency }

/-- `setGapThreshold(threshold)`: `Math.max(1, Math.round(threshold))`. -/
def setGapThreshold (r : Renderer) (threshold : ℝ) : Renderer :=
  { r with gapThreshold := (max 1 (jsRound threshold)).toNat }

/-- The visual-mode switch handler of `FloatingMenu.setupEventListeners`:
`renderer.setMode(mode)`, then `renderer.clearData()` when switching to
range mode. -/
def menuSetMode (r : Renderer) (mode : String) : Renderer :=
  let r1 := setMode r mode
  if mode = "range" then clearData r1 else r1

/-- `zoom(delta)`: scale the range width by `1.2 ^ delta`, clamp to
[6, 120] semitones, re-center on the previous midpoint, rounding each
endpoint with `Math.round`. -/
def zoom (r : Renderer) (delta : ℝ) : Renderer :=
  let currentRange := r.maxMidiNote - r.minMidiNote
  let zoomFactor := Real.rpow 1.2 delta
  let newRange := max 6 (min 120 (currentRange * zoomFactor))
  let center := (r.maxMidiNote + r.minMidiNote) / 2
  { r with
    minMidiNote := (jsRound (center - newRange / 2) : ℝ),
    maxMidiNote := (jsRound (center + newRange / 2) : ℝ) }

/-- `pan(deltaY)`: shift both endpoints by
`-(deltaY / height) * currentRange * 0.05`. -/
def pan (r : Renderer) (deltaY : ℝ) : Renderer :=
  let currentRange := r.maxMidiNote - r.minMidiNote
  let midiDelta := deltaY / r.height * currentRange * 0.05
  { r with
    minMidiNote := r.minMidiNote - midiDelta
    maxMidiNote := r.maxMidiNote - midiDelta }

/-! ### drawPitchGraph: polyline reconstruction with gap tolerance -/

/-- The walk state of `drawPitchGraph`'s `forEach`: the `isDrawing`
flag, the `consecutiveNulls` counter, the stroked segments so far and
the open path (`segs`/`cur` model the canvas path between `beginPath`
and `stroke` calls). -/
structure WalkSt where
  isDrawing : Bool
  consecutiveNulls : ℕ
  segs : List (List (ℝ × ℝ))
  cur : List (ℝ × ℝ)

/-- The unvoiced branch of the walk: count the null, and
`stroke(); beginPath()` once the run reaches `gapThreshold` while a
line is being drawn. -/
def drawStepNull (r : Renderer) (st : WalkSt) : WalkSt :=
  let n := st.consecutiveNulls + 1
  if r.gapThreshold ≤ n ∧ st.isDrawing = true then
    { isDrawing := false, consecutiveNulls := n,
      segs := st.segs ++ [st.cur], cur := [] }
  else { st with consecutiveNulls := n }

/-- One iteration of `drawPitchGraph`'s `forEach` over `pitchData`:
`x` scrolls with `now`, a falsy frequency feeds the null counter, a
voiced point either starts (`moveTo`) or continues (`lineTo`) the
current segment. -/
def drawStep (r : Renderer) (now : ℝ) (st : WalkSt) (point : Sample) :
    WalkSt :=
  let timeDelta := now - point.timestamp
  let x := r.width - timeDelta / (r.timeWindow * 1000) * (r.width - 60)
  match point.frequency with
  | none => drawStepNull r st
  | some f =>
    if f = 0 then drawStepNull r st
    else
      let y := frequencyToY r f
      if st.isDrawing = true then
        { st with consecutiveNulls := 0, cur := st.cur ++ [(x, y)] }
      else
        { st with isDrawing := true, consecutiveNulls := 0, cur := [(x, y)] }

/-- The point `(x, y)` that `drawPitchGraph` computes for a voiced
sample with frequency `p.1` and timestamp `p.2`. -/
def samplePoint (r : Renderer) (now : ℝ) (p : ℝ × ℝ) : ℝ × ℝ :=
  (r.width - (now - p.2) / (r.timeWindow * 1000) * (r.width - 60),
    frequencyToY r p.1)

/-- `drawPitchGraph()` with `now` explicit, abstracted to the list of
stroked polyline segments: nothing with fewer than two data points;
otherwise the gap-tolerant walk, stroking the final open segment. -/
def drawPitchGraph (r : Renderer) (now : ℝ) : List (List (ℝ × ℝ)) :=
  if r.pitchData.length < 2 then []
  else
    let fin := r.pitchData.foldl (drawStep r now) ⟨false, 0, [], []⟩
    if fin.isDrawing then fin.segs ++ [fin.cur] else fin.segs

/-! ## Theorems -/

/-! ### Projection lemmas for the `addPitchData` stages -/

@[simp] lemma performAutoRange_timeWindow (r : Renderer) :
    (performAutoRange r).timeWindow = r.timeWindow := by
  unfold performAutoRange; split <;> rfl

@[simp] lemma performAutoRange_pitchData (r : Renderer) :
    (performAutoRange r).pitchData = r.pitchData := by
  unfold performAutoRange; split <;> rfl

@[simp] lemma performAutoRange_mode (r : Renderer) :
    (performAutoRange r).mode = r.mode := by
  unfold performAutoRange; split <;> rfl

@[simp] lemma performAutoRange_rangeMin (r : Renderer) :
    (performAutoRange r).rangeMin = r.rangeMin := by
  unfold performAutoRange; split <;> rfl

@[simp] lemma performAutoRange_rangeMax (r : Renderer) :
    (performAutoRange r).rangeMax = r.rangeMax := by
  unfold performAutoRange; split <;> rfl

@[simp] lemma performAutoRange_autoRangeSamples (r : Renderer) :
    (performAutoRange r).autoRangeSamples = r.autoRangeSamples := by
  unfold performAutoRange; split <;> rfl

@[simp] lemma performAutoRange_hasAutoRanged (r : Renderer) :
    (performAutoRange r).hasAutoRanged = r.hasAutoRanged := by
  unfold performAutoRange; split <;> rfl

@[simp] lemma performAutoRange_autoRangeEnabled (r : Renderer) :
    (performAutoRange r).autoRangeEnabled = r.autoRangeEnabled := by
  unfold performAutoRange; split <;> rfl

@[simp] lemma performAutoRange_autoRangeSampleCount (r : Renderer) :
    (performAutoRange r).autoRangeSampleCount = r.autoRangeSampleCount := by
  unfold performAutoRange; split <;> rfl

@[simp] lemma autoRangeStage_timeWindow (r : Renderer) (f : Option ℝ) :
    (autoRangeStage r f).timeWindow = r.timeWindow := by
  unfold autoRangeStage
  cases f with
  | none => rfl
  | some f => dsimp only; split_ifs <;> simp

@[simp] lemma autoRangeStage_pitchData (r : Renderer) (f : Option ℝ) :
    (autoRangeStage r f).pitchData = r.pitchData := by
  unfold autoRangeStage
  cases f with
  | none => rfl
  | some f => dsimp only; split_ifs <;> simp

@[simp] lemma autoRangeStage_mode (r : Renderer) (f : Option ℝ) :
    (autoRangeStage r f).mode = r.mode := by
  unfold autoRangeStage
  cases f with
  | none => rfl
  | some f => dsimp only; split_ifs <;> simp

@[simp] lemma autoRangeStage_rangeMin (r : Renderer) (f : Option ℝ) :
    (autoRangeStage r f).rangeMin = r.rangeMin := by
  unfold autoRangeStage
  cases f with
  | none => rfl
  | some f => dsimp only; split_ifs <;> simp

@[simp] lemma autoRangeStage_rangeMax (r : Renderer) (f : Option ℝ) :
    (autoRangeStage r f).rangeMax = r.rangeMax := by
  unfold autoRangeStage
  cases f with
  | none => rfl
  | some f => dsimp only; split_ifs <;> simp

@[simp] lemma autoRangeStage_autoRangeEnabled (r : Renderer) (f : Option ℝ) :
    (autoRangeStage r f).autoRangeEnabled = r.autoRangeEnabled := by
  unfold autoRangeStage
  cases f with
  | none => rfl
  | some f => dsimp only; split_ifs <;> simp

@[simp] lemma autoRangeStage_autoRangeSampleCount (r : Renderer) (f : Option ℝ) :
    (autoRangeStage r f).autoRangeSampleCount = r.autoRangeSampleCount := by
  unfold autoRangeStage
  cases f with
  | none => rfl
  | some f => dsimp only; split_ifs <;> simp

@[simp] lemma pushStage_timeWindow (r : Renderer) (f : Option ℝ) (t : ℝ) :
    (pushStage r f t).timeWindow = r.timeWindow := rfl

@[simp] lemma pushStage_mode (r : Renderer) (f : Option ℝ) (t : ℝ) :
    (pushStage r f t).mode = r.mode := rfl

@[simp] lemma pushStage_minMidiNote (r : Renderer) (f : Option ℝ) (t : ℝ) :
    (pushStage r f t).minMidiNote = r.minMidiNote := rfl

@[simp] lemma pushStage_maxMidiNote (r : Renderer) (f : Option ℝ) (t : ℝ) :
    (pushStage r f t).maxMidiNote = r.maxMidiNote := rfl

@[simp] lemma pushStage_hasAutoRanged (r : Renderer) (f : Option ℝ) (t : ℝ) :
    (pushStage r f t).hasAutoRanged = r.hasAutoRanged := rfl

@[simp] lemma pushStage_autoRangeSamples (r : Renderer) (f : Option ℝ) (t : ℝ) :
    (pushStage r f t).autoRangeSamples = r.autoRangeSamples := rfl

@[simp] lemma pushStage_autoRangeEnabled (r : Renderer) (f : Option ℝ) (t : ℝ) :
    (pushStage r f t).autoRangeEnabled = r.autoRangeEnabled := rfl

@[simp] lemma pushStage_autoRangeSampleCount (r : Renderer) (f : Option ℝ)
    (t : ℝ) :
    (pushStage r f t).autoRangeSampleCount = r.autoRangeSampleCount := rfl

@[simp] lemma pushStage_rangeMin (r : Renderer) (f : Option ℝ) (t : ℝ) :
    (pushStage r f t).rangeMin = r.rangeMin := rfl

@[simp] lemma pushStage_rangeMax (r : Renderer) (f : Option ℝ) (t : ℝ) :
    (pushStage r f t).rangeMax = r.rangeMax := rfl

@[simp] lemma pushStage_pitchData (r : Renderer) (f : Option ℝ) (t : ℝ) :
    (pushStage r f t).pitchData =
      r.pitchData ++ [({ frequency := f, timestamp := t } : Sample)] := rfl

@[simp] lemma rangeTrackStage_timeWindow (r : Renderer) (f : Option ℝ) :
    (rangeTrackStage r f).timeWindow = r.timeWindow := by
  unfold rangeTrackStage
  cases f with
  | none => rfl
  | some f => dsimp only; split_ifs <;> rfl

@[simp] lemma rangeTrackStage_pitchData (r : Renderer) (f : Option ℝ) :
    (rangeTrackStage r f).pitchData = r.pitchData := by
  unfold rangeTrackStage
  cases f with
  | none => rfl
  | some f => dsimp only; split_ifs <;> rfl

@[simp] lemma rangeTrackStage_minMidiNote (r : Renderer) (f : Option ℝ) :
    (rangeTrackStage r f).minMidiNote = r.minMidiNote := by
  unfold rangeTrackStage
  cases f with
  | none => rfl
  | some f => dsimp only; split_ifs <;> rfl

@[simp] lemma rangeTrackStage_maxMidiNote (r : Renderer) (f : Option ℝ) :
    (rangeTrackStage r f).maxMidiNote = r.maxMidiNote := by
  unfold rangeTrackStage
  cases f with
  | none => rfl
  | some f => dsimp only; split_ifs <;> rfl

@[simp] lemma rangeTrackStage_hasAutoRanged (r : Renderer) (f : Option ℝ) :
    (rangeTrackStage r f).hasAutoRanged = r.hasAutoRanged := by
  unfold rangeTrackStage
  cases f with
  | none => rfl
  | some f => dsimp only; split_ifs <;> rfl

@[simp] lemma rangeTrackStage_autoRangeSamples (r : Renderer) (f : Option ℝ) :
    (rangeTrackStage r f).autoRangeSamples = r.autoRangeSamples := by
  unfold rangeTrackStage
  cases f with
  | none => rfl
  | some f => dsimp only; split_ifs <;> rfl

@[simp] lemma rangeTrackStage_autoRangeEnabled (r : Renderer) (f : Option ℝ) :
    (rangeTrackStage r f).autoRangeEnabled = r.autoRangeEnabled := by
  unfold rangeTrackStage
  cases f with
  | none => rfl
  | some f => dsimp only; split_ifs <;> rfl

@[simp] lemma rangeTrackStage_autoRangeSampleCount (r : Renderer) (f : Option ℝ) :
    (rangeTrackStage r f).autoRangeSampleCount = r.autoRangeSampleCount := by
  unfold rangeTrackStage
  cases f with
  | none => rfl
  | some f => dsimp only; split_ifs <;> rfl

@[simp] lemma trimStage_timeWindow (r : Renderer) (t : ℝ) :
    (trimStage r t).timeWindow = r.timeWindow := rfl

@[simp] lemma trimStage_minMidiNote (r : Renderer) (t : ℝ) :
    (trimStage r t).minMidiNote = r.minMidiNote := rfl

@[simp] lemma trimStage_maxMidiNote (r : Renderer) (t : ℝ) :
    (trimStage r t).maxMidiNote = r.maxMidiNote := rfl

@[simp] lemma trimStage_hasAutoRanged (r : Renderer) (t : ℝ) :
    (trimStage r t).hasAutoRanged = r.hasAutoRanged := rfl

@[simp] lemma trimStage_autoRangeSamples (r : Renderer) (t : ℝ) :
    (trimStage r t).autoRangeSamples = r.autoRangeSamples := rfl

@[simp] lemma trimStage_autoRangeEnabled (r : Renderer) (t : ℝ) :
    (trimStage r t).autoRangeEnabled = r.autoRangeEnabled := rfl

@[simp] lemma trimStage_autoRangeSampleCount (r : Renderer) (t : ℝ) :
    (trimStage r t).autoRangeSampleCount = r.autoRangeSampleCount := rfl

@[simp] lemma trimStage_pitchData (r : Renderer) (t : ℝ) :
    (trimStage r t).pitchData =
      r.pitchData.filter
        (fun d => decide (t - r.timeWindow * 1000 < d.timestamp)) := rfl

/-! ### C6: window trimming -/

/-- C6: after any `addPitchData(frequency)` call at time `timestamp`,
every retained sample is strictly newer than
`timestamp - timeWindow * 1000` (the cutoff of the trim filter), so no
sample as old as or older than the cutoff survives the append. -/
theorem addPitchData_window_trim (r : Renderer) (frequency : Option ℝ)
    (timestamp : ℝ) :
    ∀ s ∈ (addPitchData r frequency timestamp).pitchData,
      timestamp - r.timeWindow * 1000 < s.timestamp := by
  intro s hs
  unfold addPitchData at hs
  rw [trimStage_pitchData] at hs
  rw [List.mem_filter] at hs
  have h := hs.2
  rw [decide_eq_true_eq] at h
  simpa using h

/-- Witness for C6: the sample appended at time 0 to the fresh renderer
is retained and satisfies the trim bound. -/
theorem addPitchData_window_trim_witness :
    ({ frequency := some 220, timestamp := 0 } : Sample) ∈
        (addPitchData initialRenderer (some 220) 0).pitchData ∧
      (0 : ℝ) - initialRenderer.timeWindow * 1000 <
        ({ frequency := some 220, timestamp := 0 } : Sample).timestamp := by
  have hmem : ({ frequency := some 220, timestamp := 0 } : Sample) ∈
      (addPitchData initialRenderer (some 220) 0).pitchData := by
    unfold addPitchData
    rw [trimStage_pitchData, List.mem_filter]
    constructor
    · simp [rangeTrackStage_pitchData, pushStage, autoRangeStage_pitchData]
    · rw [decide_eq_true_eq]
      simp [initialRenderer]
  exact ⟨hmem,
    addPitchData_window_trim initialRenderer (some 220) 0 _ hmem⟩

/-! ### C9: display-mode switching -/

/-- C9 (amended): switching into range mode through the menu handler
clears the rolling window and both range accumulators; switching to
any non-range mode leaves the window untouched but also clears the
range accumulators, regardless of which mode is entered. -/
theorem modeSwitch_effects (r : Renderer) (mode : String) :
    (mode = "range" →
      (menuSetMode r mode).pitchData = [] ∧
        (menuSetMode r mode).rangeMin = none ∧
        (menuSetMode r mode).rangeMax = none ∧
        (menuSetMode r mode).mode = mode) ∧
      (mode ≠ "range" →
        (menuSetMode r mode).pitchData = r.pitchData ∧
          (menuSetMode r mode).rangeMin = none ∧
          (menuSetMode r mode).rangeMax = none ∧
          (menuSetMode r mode).mode = mode) := by
  constructor <;> intro h <;>
    simp [menuSetMode, setMode, clearData, h]

/-- Witness for C9: switching the fresh renderer into range mode
empties the window; switching it to normal mode clears `rangeMin`. -/
theorem modeSwitch_effects_witness :
    (menuSetMode initialRenderer "range").pitchData = [] ∧
      (menuSetMode initialRenderer "normal").rangeMin = none := by
  exact ⟨((modeSwitch_effects initialRenderer "range").1 rfl).1,
    ((modeSwitch_effects initialRenderer "normal").2 (by simp)).2.1⟩

/-- Counterexample for C9 as stated: switching from range mode to
normal mode resets the *range* accumulators (which belong to the mode
being left, not the mode being entered): a stored `rangeMin = 100` is
wiped by `setMode("normal")`. -/
theorem modeSwitch_resets_range_accumulators_cex :
    ({ initialRenderer with
        mode := "range", rangeMin := some (100 : ℝ),
        rangeMax := some (200 : ℝ) } : Renderer).rangeMin = some 100 ∧
      (menuSetMode
        { initialRenderer with
          mode := "range", rangeMin := some (100 : ℝ),
          rangeMax := some (200 : ℝ) } "normal").rangeMin = none := by
  constructor
  · rfl
  · simp [menuSetMode, setMode]

/-! ### C1: auto-ranging -/

/-- The collecting step of the auto-range block: a voiced sample while
enabled and not yet ranged, with fewer than `autoRangeSampleCount`
samples even after the push, is appended to `autoRangeSamples` and
nothing else changes. -/
lemma autoRangeStage_collect (r : Renderer) (f : ℝ) (hf : f ≠ 0)
    (he : r.autoRangeEnabled = true) (hn : r.hasAutoRanged = false)
    (hlt : r.autoRangeSamples.length + 1 < r.autoRangeSampleCount) :
    autoRangeStage r (some f) =
      { r with autoRangeSamples := r.autoRangeSamples ++ [f] } := by
  unfold autoRangeStage
  dsimp only
  rw [if_pos ⟨hf, he, hn⟩, if_neg]
  simp only [List.length_append, List.length_singleton]
  omega

/-- The triggering step of the auto-range block: the push that reaches
`autoRangeSampleCount` runs `performAutoRange` and sets
`hasAutoRanged`; the pending samples are kept. -/
lemma autoRangeStage_trigger (r : Renderer) (f : ℝ) (hf : f ≠ 0)
    (he : r.autoRangeEnabled = true) (hn : r.hasAutoRanged = false)
    (hge : r.autoRangeSampleCount ≤ r.autoRangeSamples.length + 1) :
    autoRangeStage r (some f) =
      { performAutoRange
          { r with autoRangeSamples := r.autoRangeSamples ++ [f] } with
        hasAutoRanged := true } := by
  unfold autoRangeStage
  dsimp only
  rw [if_pos ⟨hf, he, hn⟩, if_pos]
  simp only [List.length_append, List.length_singleton]
  omega

/-- Once `hasAutoRanged` is set, the auto-range block is inert. -/
lemma autoRangeStage_afterRanged (r : Renderer) (freq : Option ℝ)
    (hr : r.hasAutoRanged = true) :
    autoRangeStage r freq = r := by
  unfold autoRangeStage
  cases freq with
  | none => rfl
  | some f =>
    dsimp only
    rw [if_neg]
    simp [hr]

/-- `performAutoRange` on a non-empty sample list: center the 36-semitone
window on the MIDI value of the mean frequency. -/
lemma performAutoRange_eq (r : Renderer) (hne : r.autoRangeSamples ≠ []) :
    performAutoRange r =
      { r with
        minMidiNote :=
          (jsRound (hzToMidi (r.autoRangeSamples.sum /
            (r.autoRangeSamples.length : ℝ)) - 36 / 2) : ℝ)
        maxMidiNote :=
          (jsRound (hzToMidi (r.autoRangeSamples.sum /
            (r.autoRangeSamples.length : ℝ)) + 36 / 2) : ℝ) } := by
  unfold performAutoRange
  rw [if_neg]
  simpa using hne

/-- C1 (amended): while auto-range is enabled and has not yet ranged,
each voiced sample's frequency is appended to the pending list; the
append that reaches `autoRangeSampleCount` (default 10) sets the view
range to `[round(mean_midi - 18), round(mean_midi + 18)]` for the MIDI
value of the mean pending frequency and makes `hasAutoRanged`
permanent (no later sample re-triggers it) until an explicit clear;
the pending list is *retained* after the transition (not discarded),
and only `clearData` empties it. -/
theorem autoRange_fires_once (r : Renderer) (f : ℝ) (ts : ℝ) (hf : f ≠ 0)
    (he : r.autoRangeEnabled = true) :
    (r.hasAutoRanged = false →
      (addPitchData r (some f) ts).autoRangeSamples =
          r.autoRangeSamples ++ [f] ∧
        (r.autoRangeSamples.length + 1 < r.autoRangeSampleCount →
          (addPitchData r (some f) ts).hasAutoRanged = false ∧
            (addPitchData r (some f) ts).minMidiNote = r.minMidiNote ∧
            (addPitchData r (some f) ts).maxMidiNote = r.maxMidiNote) ∧
        (r.autoRangeSampleCount ≤ r.autoRangeSamples.length + 1 →
          (addPitchData r (some f) ts).hasAutoRanged = true ∧
            (addPitchData r (some f) ts).minMidiNote =
              (jsRound (hzToMidi ((r.autoRangeSamples ++ [f]).sum /
                (((r.autoRangeSamples ++ [f]).length : ℕ) : ℝ)) - 18) : ℝ) ∧
            (addPitchData r (some f) ts).maxMidiNote =
              (jsRound (hzToMidi ((r.autoRangeSamples ++ [f]).sum /
                (((r.autoRangeSamples ++ [f]).length : ℕ) : ℝ)) + 18) : ℝ))) ∧
      (r.hasAutoRanged = true → ∀ freq ts2,
        (addPitchData r freq ts2).hasAutoRanged = true ∧
          (addPitchData r freq ts2).minMidiNote = r.minMidiNote ∧
          (addPitchData r freq ts2).maxMidiNote = r.maxMidiNote ∧
          (addPitchData r freq ts2).autoRangeSamples = r.autoRangeSamples) ∧
      ((clearData r).hasAutoRanged = false ∧
        (clearData r).autoRangeSamples = []) := by
  refine ⟨?_, ?_, by simp [clearData]⟩
  · intro hn
    refine ⟨?_, ?_, ?_⟩
    · by_cases hcount : r.autoRangeSamples.length + 1 < r.autoRangeSampleCount
      · simp [addPitchData, autoRangeStage_collect r f hf he hn hcount]
      · rw [addPitchData]
        simp only [trimStage_autoRangeSamples, rangeTrackStage_autoRangeSamples,
          pushStage_autoRangeSamples,
          autoRangeStage_trigger r f hf he hn (by omega)]
        simp
    · intro hcount
      simp [addPitchData, autoRangeStage_collect r f hf he hn hcount, hn]
    · intro hcount
      have hne : ({ r with autoRangeSamples := r.autoRangeSamples ++ [f] }
          : Renderer).autoRangeSamples ≠ [] := by simp
      rw [addPitchData]
      simp only [trimStage_hasAutoRanged, trimStage_minMidiNote,
        trimStage_maxMidiNote, rangeTrackStage_hasAutoRanged,
        rangeTrackStage_minMidiNote, rangeTrackStage_maxMidiNote,
        pushStage_hasAutoRanged, pushStage_minMidiNote, pushStage_maxMidiNote,
        autoRangeStage_trigger r f hf he hn hcount,
        performAutoRange_eq _ hne]
      norm_num
  · intro hr freq ts2
    simp [addPitchData, autoRangeStage_afterRanged r freq hr, hr]

/-- Witness for C1 (amended): with nine pending samples at 220 Hz, a
tenth voiced 220 Hz sample triggers auto-ranging: the mean is 220 Hz
(MIDI 57) and the view range becomes [39, 75]. -/
theorem autoRange_fires_once_witness :
    (addPitchData
        { initialRenderer with autoRangeSamples := List.replicate 9 (220 : ℝ) }
        (some 220) 0).hasAutoRanged = true ∧
      (addPitchData
        { initialRenderer with autoRangeSamples := List.replicate 9 (220 : ℝ) }
        (some 220) 0).minMidiNote = 39 ∧
      (addPitchData
        { initialRenderer with autoRangeSamples := List.replicate 9 (220 : ℝ) }
        (some 220) 0).maxMidiNote = 75 := by
  have h := ((autoRange_fires_once
      { initialRenderer with autoRangeSamples := List.replicate 9 (220 : ℝ) }
      220 0 (by norm_num) rfl).1 rfl).2.2 (by simp [initialRenderer])
  have hmean : ((List.replicate 9 (220 : ℝ) ++ [220]).sum /
      (((List.replicate 9 (220 : ℝ) ++ [220]).length : ℕ) : ℝ)) = 220 := by
    simp [List.sum_replicate]
    norm_num
  have hmidi : hzToMidi 220 = 57 := by
    unfold hzToMidi
    have h12 : (220 : ℝ) / 440 = (2 : ℝ)⁻¹ := by norm_num
    rw [h12, Real.logb_inv, Real.logb_self_eq_one (by norm_num)]
    norm_num
  have hlo : jsRound (57 - 18) = 39 := by
    unfold jsRound
    rw [Int.floor_eq_iff]
    norm_num
  have hhi : jsRound (57 + 18) = 75 := by
    unfold jsRound
    rw [Int.floor_eq_iff]
    norm_num
  refine ⟨h.1, ?_, ?_⟩
  · rw [h.2.1, hmean, hmidi, hlo]
    norm_num
  · rw [h.2.2, hmean, hmidi, hhi]
    norm_num

/-- Counterexample for C1 as stated: after the transition the pending
sample list is *not* discarded — the triggering `addPitchData` leaves
all ten collected samples in `autoRangeSamples`. -/
theorem autoRange_pending_not_discarded_cex :
    (addPitchData
        { initialRenderer with autoRangeSamples := List.replicate 9 (220 : ℝ) }
        (some 220) 0).hasAutoRanged = true ∧
      (addPitchData
        { initialRenderer with autoRangeSamples := List.replicate 9 (220 : ℝ) }
        (some 220) 0).autoRangeSamples =
        List.replicate 9 (220 : ℝ) ++ [220] := by
  constructor
  · rw [addPitchData]
    simp only [trimStage_hasAutoRanged, rangeTrackStage_hasAutoRanged,
      pushStage_hasAutoRanged]
    rw [autoRangeStage_trigger _ 220 (by norm_num) rfl rfl (by simp [initialRenderer])]
  · rw [addPitchData]
    simp only [trimStage_autoRangeSamples, rangeTrackStage_autoRangeSamples,
      pushStage_autoRangeSamples]
    rw [autoRangeStage_trigger _ 220 (by norm_num) rfl rfl (by simp [initialRenderer])]
    simp

/-! ### C5: gap-tolerant polyline reconstruction -/

lemma drawStep_null (r : Renderer) (now : ℝ) (st : WalkSt) (t : ℝ) :
    drawStep r now st ({ frequency := none, timestamp := t } : Sample) =
      drawStepNull r st := rfl

lemma drawStepNull_notDrawing (r : Renderer) (n : ℕ)
    (segs : List (List (ℝ × ℝ))) (cur : List (ℝ × ℝ)) :
    drawStepNull r ⟨false, n, segs, cur⟩ = ⟨false, n + 1, segs, cur⟩ := by
  unfold drawStepNull
  dsimp only
  rw [if_neg]
  simp

lemma drawStepNull_drawing_lt (r : Renderer) (n : ℕ)
    (segs : List (List (ℝ × ℝ))) (cur : List (ℝ × ℝ))
    (h : n + 1 < r.gapThreshold) :
    drawStepNull r ⟨true, n, segs, cur⟩ = ⟨true, n + 1, segs, cur⟩ := by
  unfold drawStepNull
  dsimp only
  rw [if_neg]
  rintro ⟨h1, -⟩
  omega

lemma drawStepNull_drawing_ge (r : Renderer) (n : ℕ)
    (segs : List (List (ℝ × ℝ))) (cur : List (ℝ × ℝ))
    (h : r.gapThreshold ≤ n + 1) :
    drawStepNull r ⟨true, n, segs, cur⟩ = ⟨false, n + 1, segs ++ [cur], []⟩ := by
  unfold drawStepNull
  dsimp only
  rw [if_pos ⟨h, rfl⟩]

lemma drawStep_voiced (r : Renderer) (now : ℝ) (st : WalkSt) (p : ℝ × ℝ)
    (hp : p.1 ≠ 0) :
    drawStep r now st ({ frequency := some p.1, timestamp := p.2 } : Sample) =
      if st.isDrawing = true then
        { st with
          consecutiveNulls := 0
          cur := st.cur ++ [samplePoint r now p] }
      else
        { st with
          isDrawing := true
          consecutiveNulls := 0
          cur := [samplePoint r now p] } := by
  unfold drawStep samplePoint
  dsimp only
  rw [if_neg hp]

/-- A run of unvoiced samples while not drawing only feeds the null
counter. -/
lemma foldl_nulls_notDrawing (r : Renderer) (now : ℝ) (us : List ℝ) :
    ∀ (n : ℕ) (segs : List (List (ℝ × ℝ))) (cur : List (ℝ × ℝ)),
      List.foldl (drawStep r now) ⟨false, n, segs, cur⟩
        (us.map (fun t : ℝ => ({ frequency := none, timestamp := t } : Sample))) =
      ⟨false, n + us.length, segs, cur⟩ := by
  induction us with
  | nil => intro n segs cur; simp
  | cons t rest ih =>
    intro n segs cur
    simp only [List.map_cons, List.foldl_cons, drawStep_null,
      drawStepNull_notDrawing]
    rw [ih]
    simp only [List.length_cons]
    congr 1
    omega

/-- A run of unvoiced samples while drawing with counter `n` below the
gap threshold: the line survives runs that keep the counter below the
threshold and is stroked (the open segment is emitted) once the
counter reaches it. -/
lemma foldl_nulls_drawing (r : Renderer) (now : ℝ) (us : List ℝ) :
    ∀ (n : ℕ) (segs : List (List (ℝ × ℝ))) (cur : List (ℝ × ℝ)),
      n < r.gapThreshold →
      List.foldl (drawStep r now) ⟨true, n, segs, cur⟩
        (us.map (fun t : ℝ => ({ frequency := none, timestamp := t } : Sample))) =
      if n + us.length < r.gapThreshold then ⟨true, n + us.length, segs, cur⟩
      else ⟨false, n + us.length, segs ++ [cur], []⟩ := by
  induction us with
  | nil =>
    intro n segs cur hn
    simp only [List.map_nil, List.foldl_nil, List.length_nil, Nat.add_zero]
    rw [if_pos hn]
  | cons t rest ih =>
    intro n segs cur hn
    simp only [List.map_cons, List.foldl_cons, drawStep_null]
    by_cases hc : r.gapThreshold ≤ n + 1
    · rw [drawStepNull_drawing_ge r n segs cur hc, foldl_nulls_notDrawing,
        if_neg (by simp only [List.length_cons]; omega)]
      simp only [List.length_cons]
      congr 1
      omega
    · rw [drawStepNull_drawing_lt r n segs cur (by omega), ih (n + 1) segs cur (by omega)]
      simp only [List.length_cons]
      by_cases hlt : n + 1 + rest.length < r.gapThreshold
      · rw [if_pos hlt, if_pos (by omega)]
        congr 1
        omega
      · rw [if_neg hlt, if_neg (by omega)]
        congr 1
        omega

/-- A non-empty run of voiced samples: the walk ends drawing with a
zeroed null counter, the points appended to the open segment (which
starts empty if the walk was not drawing). -/
lemma foldl_voiced (r : Renderer) (now : ℝ) (va : List (ℝ × ℝ)) :
    ∀ (d : Bool) (n : ℕ) (segs : List (List (ℝ × ℝ))) (cur : List (ℝ × ℝ)),
      va ≠ [] → (∀ p ∈ va, p.1 ≠ 0) →
      List.foldl (drawStep r now) ⟨d, n, segs, cur⟩
        (va.map (fun p : ℝ × ℝ =>
          ({ frequency := some p.1, timestamp := p.2 } : Sample))) =
      ⟨true, 0, segs, (if d = true then cur else []) ++ va.map (samplePoint r now)⟩ := by
  induction va with
  | nil => intro d n segs cur hne _; exact absurd rfl hne
  | cons p rest ih =>
    intro d n segs cur _ hf
    have hp : p.1 ≠ 0 := hf p (by simp)
    simp only [List.map_cons, List.foldl_cons, drawStep_voiced r now _ p hp]
    by_cases hrest : rest = []
    · subst hrest
      cases d <;> simp
    · have hfr : ∀ q ∈ rest, q.1 ≠ 0 := fun q hq => hf q (by simp [hq])
      cases d
      · simp only [Bool.false_eq_true, if_neg, ite_false]
        rw [ih true 0 segs [samplePoint r now p] hrest hfr]
        simp
      · simp only [ite_true]
        rw [ih true 0 segs (cur ++ [samplePoint r now p]) hrest hfr]
        simp

/-- C5: walking the window oldest to newest, a maximal unvoiced run
strictly shorter than `gapThreshold` between two voiced runs leaves the
polyline connected as one segment joining the surrounding voiced
points, while a run of length at least `gapThreshold` closes the
current segment and starts a new one at the next voiced point. -/
theorem drawPitchGraph_gap_tolerance (r : Renderer) (now : ℝ)
    (va vb : List (ℝ × ℝ)) (us : List ℝ)
    (hva : va ≠ []) (hvb : vb ≠ [])
    (hfa : ∀ p ∈ va, p.1 ≠ 0) (hfb : ∀ p ∈ vb, p.1 ≠ 0)
    (hgap : 1 ≤ r.gapThreshold)
    (hdata : r.pitchData =
      va.map (fun p : ℝ × ℝ =>
        ({ frequency := some p.1, timestamp := p.2 } : Sample)) ++
      us.map (fun t : ℝ => ({ frequency := none, timestamp := t } : Sample)) ++
      vb.map (fun p : ℝ × ℝ =>
        ({ frequency := some p.1, timestamp := p.2 } : Sample))) :
    drawPitchGraph r now =
      if us.length < r.gapThreshold
      then [va.map (samplePoint r now) ++ vb.map (samplePoint r now)]
      else [va.map (samplePoint r now), vb.map (samplePoint r now)] := by
  have hlen : ¬ r.pitchData.length < 2 := by
    rw [hdata]
    have h1 : 1 ≤ va.length := List.length_pos.mpr hva
    have h2 : 1 ≤ vb.length := List.length_pos.mpr hvb
    simp only [List.length_append, List.length_map]
    omega
  unfold drawPitchGraph
  rw [if_neg hlen, hdata, List.foldl_append, List.foldl_append]
  rw [foldl_voiced r now va false 0 [] [] hva hfa]
  simp only [Bool.false_eq_true, ite_false, List.nil_append]
  rw [foldl_nulls_drawing r now us 0 [] (va.map (samplePoint r now)) (by omega)]
  simp only [Nat.zero_add]
  by_cases hsplit : us.length < r.gapThreshold
  · rw [if_pos hsplit, foldl_voiced r now vb true us.length []
      (va.map (samplePoint r now)) hvb hfb]
    simp only [ite_true, if_pos hsplit]
    simp
  · rw [if_neg hsplit, foldl_voiced r now vb false us.length
      ([] ++ [va.map (samplePoint r now)]) [] hvb hfb]
    simp only [if_neg hsplit]
    simp

/-- Witness for C5: the sequence voiced(220 Hz), unvoiced, unvoiced,
voiced(440 Hz) reconstructs as one connected two-point segment with the
default gap threshold 3, and as two one-point segments with gap
threshold 2. -/
theorem drawPitchGraph_gap_tolerance_witness :
    drawPitchGraph
        { initialRenderer with
          width := 160, height := 100,
          pitchData :=
            [({ frequency := some 220, timestamp := 0 } : Sample),
              ({ frequency := none, timestamp := 0 } : Sample),
              ({ frequency := none, timestamp := 0 } : Sample),
              ({ frequency := some 440, timestamp := 0 } : Sample)] } 0 =
      [[((160 : ℝ), (75 : ℝ)), ((160 : ℝ), (125 / 3 : ℝ))]] ∧
    drawPitchGraph
        { initialRenderer with
          width := 160, height := 100, gapThreshold := 2,
          pitchData :=
            [({ frequency := some 220, timestamp := 0 } : Sample),
              ({ frequency := none, timestamp := 0 } : Sample),
              ({ frequency := none, timestamp := 0 } : Sample),
              ({ frequency := some 440, timestamp := 0 } : Sample)] } 0 =
      [[((160 : ℝ), (75 : ℝ))], [((160 : ℝ), (125 / 3 : ℝ))]] := by
  have hm220 : hzToMidi 220 = 57 := by
    unfold hzToMidi
    have h12 : (220 : ℝ) / 440 = (2 : ℝ)⁻¹ := by norm_num
    rw [h12, Real.logb_inv, Real.logb_self_eq_one (by norm_num)]
    norm_num
  have hm440 : hzToMidi 440 = 69 := by
    unfold hzToMidi
    have h11 : (440 : ℝ) / 440 = (1 : ℝ) := by norm_num
    rw [h11, Real.logb_one]
    norm_num
  constructor
  · have h := drawPitchGraph_gap_tolerance
      { initialRenderer with
        width := 160, height := 100,
        pitchData :=
          [({ frequency := some 220, timestamp := 0 } : Sample),
            ({ frequency := none, timestamp := 0 } : Sample),
            ({ frequency := none, timestamp := 0 } : Sample),
            ({ frequency := some 440, timestamp := 0 } : Sample)] } 0
      [((220 : ℝ), (0 : ℝ))] [((440 : ℝ), (0 : ℝ))] [(0 : ℝ), (0 : ℝ)]
      (by simp) (by simp) (by norm_num) (by norm_num)
      (by norm_num [initialRenderer]) (by simp)
    rw [h, if_pos (by norm_num [initialRenderer])]
    simp only [List.map_cons, List.map_nil, samplePoint, frequencyToY]
    rw [hm220, hm440]
    norm_num [initialRenderer]
  · have h := drawPitchGraph_gap_tolerance
      { initialRenderer with
        width := 160, height := 100, gapThreshold := 2,
        pitchData :=
          [({ frequency := some 220, timestamp := 0 } : Sample),
            ({ frequency := none, timestamp := 0 } : Sample),
            ({ frequency := none, timestamp := 0 } : Sample),
            ({ frequency := some 440, timestamp := 0 } : Sample)] } 0
      [((220 : ℝ), (0 : ℝ))] [((440 : ℝ), (0 : ℝ))] [(0 : ℝ), (0 : ℝ)]
      (by simp) (by simp) (by norm_num) (by norm_num)
      (by norm_num) (by simp)
    rw [h, if_neg (by norm_num)]
    simp only [List.map_cons, List.map_nil, samplePoint, frequencyToY]
    rw [hm220, hm440]
    norm_num [initialRenderer]

/-! ### C8: getNoteRange -/

/-- C8: for all integers `a ≤ b`, `getNoteRange(a, b)` has exactly
`b - a + 1` entries and its `i`-th entry has MIDI number `a + i` (so
the MIDI numbers increase strictly from `a` to `b`); for `a > b` the
result is empty. -/
theorem getNoteRange_spec (a b : ℤ) :
    (a ≤ b → ((getNoteRange a b).length : ℤ) = b - a + 1) ∧
      (b < a → getNoteRange a b = []) ∧
      ∀ i, (h : i < (getNoteRange a b).length) →
        ((getNoteRange a b).get ⟨i, h⟩).midiNumber = a + i := by
  refine ⟨?_, ?_, ?_⟩
  · intro hab
    rw [getNoteRange, List.length_map, List.length_range,
      Int.toNat_of_nonneg (by omega)]
    ring
  · intro hba
    rw [getNoteRange]
    have h0 : (b + 1 - a).toNat = 0 := by omega
    rw [h0]
    rfl
  · intro i h
    simp only [getNoteRange, List.get_eq_getElem, List.getElem_map,
      List.getElem_range]
    rfl

/-- Witness for C8: `getNoteRange(3, 5)` has 3 entries, its entry at
index 1 has MIDI number 4, and `getNoteRange(5, 3)` is empty. -/
theorem getNoteRange_spec_witness :
    ((getNoteRange 3 5).length : ℤ) = 3 ∧ getNoteRange 5 3 = [] ∧
      ((getNoteRange 3 5).get
        ⟨1, by simp [getNoteRange]⟩).midiNumber = 4 := by
  refine ⟨?_, ?_, ?_⟩
  · have h := (getNoteRange_spec 3 5).1 (by norm_num)
    rw [h]; norm_num
  · exact (getNoteRange_spec 5 3).2.1 (by norm_num)
  · have h := (getNoteRange_spec 3 5).2.2 1 (by simp [getNoteRange])
    rw [h]; norm_num

/-- One zoom call leaves the view-range width inside [6, 120]
semitones, whatever the starting width: the clamped width `nr` is in
[6, 120] and the rounded endpoints differ by an integer strictly
between `nr - 1` and `nr + 1`. -/
lemma zoom_width_step (r : Renderer) (delta : ℝ) :
    6 ≤ (zoom r delta).maxMidiNote - (zoom r delta).minMidiNote ∧
      (zoom r delta).maxMidiNote - (zoom r delta).minMidiNote ≤ 120 := by
  have h6 : (6 : ℝ) ≤
      max 6 (min 120 ((r.maxMidiNote - r.minMidiNote) * Real.rpow 1.2 delta)) :=
    le_max_left _ _
  have h120 :
      max 6 (min 120 ((r.maxMidiNote - r.minMidiNote) * Real.rpow 1.2 delta)) ≤
        120 :=
    max_le (by norm_num) (min_le_left _ _)
  set nr := max 6 (min 120 ((r.maxMidiNote - r.minMidiNote) * Real.rpow 1.2 delta))
    with hnr
  set c := (r.maxMidiNote + r.minMidiNote) / 2 with hc
  have hmin : (zoom r delta).minMidiNote = ((⌊c - nr / 2 + 1 / 2⌋ : ℤ) : ℝ) := rfl
  have hmax : (zoom r delta).maxMidiNote = ((⌊c + nr / 2 + 1 / 2⌋ : ℤ) : ℝ) := rfl
  rw [hmin, hmax]
  have ha1 : ((⌊c + nr / 2 + 1 / 2⌋ : ℤ) : ℝ) ≤ c + nr / 2 + 1 / 2 := Int.floor_le _
  have ha2 : c + nr / 2 + 1 / 2 - 1 < ((⌊c + nr / 2 + 1 / 2⌋ : ℤ) : ℝ) :=
    Int.sub_one_lt_floor _
  have hb1 : ((⌊c - nr / 2 + 1 / 2⌋ : ℤ) : ℝ) ≤ c - nr / 2 + 1 / 2 := Int.floor_le _
  have hb2 : c - nr / 2 + 1 / 2 - 1 < ((⌊c - nr / 2 + 1 / 2⌋ : ℤ) : ℝ) :=
    Int.sub_one_lt_floor _
  constructor
  · have h5 : (5 : ℝ) <
        ((⌊c + nr / 2 + 1 / 2⌋ : ℤ) : ℝ) - ((⌊c - nr / 2 + 1 / 2⌋ : ℤ) : ℝ) := by
      linarith
    have h5i : (5 : ℤ) < ⌊c + nr / 2 + 1 / 2⌋ - ⌊c - nr / 2 + 1 / 2⌋ := by
      exact_mod_cast h5
    have h6i : (6 : ℤ) ≤ ⌊c + nr / 2 + 1 / 2⌋ - ⌊c - nr / 2 + 1 / 2⌋ := by omega
    have h6r : (6 : ℝ) ≤ ((⌊c + nr / 2 + 1 / 2⌋ - ⌊c - nr / 2 + 1 / 2⌋ : ℤ) : ℝ) := by
      exact_mod_cast h6i
    push_cast at h6r
    linarith
  · have h121 : ((⌊c + nr / 2 + 1 / 2⌋ : ℤ) : ℝ) - ((⌊c - nr / 2 + 1 / 2⌋ : ℤ) : ℝ) <
        121 := by linarith
    have h121i : (⌊c + nr / 2 + 1 / 2⌋ - ⌊c - nr / 2 + 1 / 2⌋ : ℤ) < 121 := by
      exact_mod_cast h121
    have h120i : (⌊c + nr / 2 + 1 / 2⌋ - ⌊c - nr / 2 + 1 / 2⌋ : ℤ) ≤ 120 := by omega
    have h120r : ((⌊c + nr / 2 + 1 / 2⌋ - ⌊c - nr / 2 + 1 / 2⌋ : ℤ) : ℝ) ≤ 120 := by
      exact_mod_cast h120i
    push_cast at h120r
    linarith

/-- C7: starting from any view range of width within [6, 120]
semitones, every finite sequence of zoom calls keeps the width
`maxMidiNote - minMidiNote` within [6, 120]: the width is clamped
before re-centering, and the rounding of the two endpoints cannot push
the integer width past either bound. -/
theorem zoom_width_clamped (r : Renderer)
    (hw : 6 ≤ r.maxMidiNote - r.minMidiNote ∧
      r.maxMidiNote - r.minMidiNote ≤ 120)
    (deltas : List ℝ) :
    6 ≤ (List.foldl zoom r deltas).maxMidiNote -
        (List.foldl zoom r deltas).minMidiNote ∧
      (List.foldl zoom r deltas).maxMidiNote -
        (List.foldl zoom r deltas).minMidiNote ≤ 120 := by
  induction deltas generalizing r with
  | nil => exact hw
  | cons d ds ih =>
    simp only [List.foldl_cons]
    exact ih (zoom r d) (zoom_width_step r d)

/-- Witness for C7: the constructor's range C3..C6 has width 36, and
after a `zoom(+1)` the width is still within [6, 120]. -/
theorem zoom_width_clamped_witness :
    (6 ≤ initialRenderer.maxMidiNote - initialRenderer.minMidiNote ∧
      initialRenderer.maxMidiNote - initialRenderer.minMidiNote ≤ 120) ∧
    (6 ≤ (List.foldl zoom initialRenderer [1]).maxMidiNote -
        (List.foldl zoom initialRenderer [1]).minMidiNote ∧
      (List.foldl zoom initialRenderer [1]).maxMidiNote -
        (List.foldl zoom initialRenderer [1]).minMidiNote ≤ 120) := by
  have hw : 6 ≤ initialRenderer.maxMidiNote - initialRenderer.minMidiNote ∧
      initialRenderer.maxMidiNote - initialRenderer.minMidiNote ≤ 120 := by
    norm_num [initialRenderer]
  exact ⟨hw, zoom_width_clamped initialRenderer hw [1]⟩

/-- C10: after any zoom call both view-range endpoints are integers
(each endpoint is produced by `Math.round`), so fractional endpoints
(which pan can create) never survive a zoom. -/
theorem zoom_endpoints_integral (r : Renderer) (delta : ℝ) :
    ∃ a b : ℤ, (zoom r delta).minMidiNote = (a : ℝ) ∧
      (zoom r delta).maxMidiNote = (b : ℝ) :=
  ⟨_, _, rfl, rfl⟩

/-! ### C2, C3, C4: the pitch detector's filter, smoothing and state -/

/-- Case analysis of `_detectPitchYIN`: either nothing passes the
threshold scan or the plausibility filter (and the state is untouched),
or the raw estimate is plausible and the smoothed value is both
returned and stored. -/
lemma detectPitchYIN_cases (st : DetState) (buffer : List ℝ) :
    (rawPitch st buffer = none ∧ detectPitchYIN st buffer = (none, st)) ∨
      ∃ f, rawPitch st buffer = some f ∧ 50 ≤ f ∧ f ≤ 2000 ∧
        detectPitchYIN st buffer =
          (some (smoothOf st f), { st with lastPitch := some (smoothOf st f) }) := by
  unfold rawPitch detectPitchYIN
  cases habs : absoluteThreshold st (cmndf (differenceFunction buffer)) with
  | none => left; simp [habs]
  | some tau =>
    by_cases hp : st.sampleRate /
          parabolicInterpolation (cmndf (differenceFunction buffer)) tau < 50 ∨
        2000 < st.sampleRate /
          parabolicInterpolation (cmndf (differenceFunction buffer)) tau
    · left
      simp [habs, hp]
    · right
      push_neg at hp
      refine ⟨st.sampleRate /
        parabolicInterpolation (cmndf (differenceFunction buffer)) tau,
        ?_, hp.1, hp.2, ?_⟩
      · simp only [habs]
        rw [if_neg]
        push_neg
        exact hp
      · simp only [habs]
        rw [if_neg (by push_neg; exact hp)]
        cases hl : st.lastPitch with
        | none => simp [smoothOf, hl]
        | some l => simp [smoothOf, hl]

/-- The smoothed value of a plausible estimate stays in [50, 2000] when
the stored pitch does and the smoothing factor is a convex weight. -/
lemma smoothOf_bounds (st : DetState) (f : ℝ) (hinv : detInv st)
    (hf1 : 50 ≤ f) (hf2 : f ≤ 2000) :
    50 ≤ smoothOf st f ∧ smoothOf st f ≤ 2000 := by
  obtain ⟨hlast, ha0, ha1⟩ := hinv
  unfold smoothOf
  cases hl : st.lastPitch with
  | none => exact ⟨hf1, hf2⟩
  | some l =>
    obtain ⟨hl1, hl2⟩ := hlast l hl
    dsimp only
    constructor <;> nlinarith

/-- Case analysis of the `detectPitch` wrapper under the reachability
invariant: the second filter and the second smoothing step are inert
(the freshly stored value is already plausible and smoothing it with
itself is the identity), so the wrapper returns exactly what
`_detectPitchYIN` produced. -/
lemma detectPitch_cases (st : DetState) (buffer : List ℝ) (hinv : detInv st) :
    (rawPitch st buffer = none ∧ detectPitch st buffer = (none, st)) ∨
      ∃ f, rawPitch st buffer = some f ∧ 50 ≤ f ∧ f ≤ 2000 ∧
        detectPitch st buffer =
          (some (smoothOf st f), { st with lastPitch := some (smoothOf st f) }) := by
  rcases detectPitchYIN_cases st buffer with ⟨hraw, hyin⟩ | ⟨f, hraw, hf1, hf2, hyin⟩
  · left
    refine ⟨hraw, ?_⟩
    unfold detectPitch
    rw [hyin]
  · right
    refine ⟨f, hraw, hf1, hf2, ?_⟩
    obtain ⟨h50, h2000⟩ := smoothOf_bounds st f hinv hf1 hf2
    unfold detectPitch
    rw [hyin]
    dsimp only
    rw [if_neg (by rintro ⟨-, h | h⟩ <;> linarith)]
    have hinner : smoothOf st f ≠ 0 ∧
        (some (smoothOf st f) : Option ℝ) ≠ none :=
      ⟨by intro h0; linarith, by simp⟩
    rw [if_pos hinner]
    have hcollapse : (Option.some (smoothOf st f)).getD 0 * st.smoothingFactor +
        smoothOf st f * (1 - st.smoothingFactor) = smoothOf st f := by
      simp only [Option.getD_some]
      ring
    rw [hcollapse, if_pos (show smoothOf st f ≠ 0 by intro h0; linarith)]

/-- C3: under the reachability invariant (stored pitch in [50, 2000],
smoothing factor in [0, 1]), every non-null result of `detectPitch`
lies within [50, 2000] Hz: any raw estimate outside the band is
rejected as unvoiced, and smoothing cannot leave the band. -/
theorem detectPitch_plausible_range (st : DetState) (buffer : List ℝ)
    (hinv : detInv st) :
    ∀ f, (detectPitch st buffer).1 = some f → 50 ≤ f ∧ f ≤ 2000 := by
  intro f hf
  rcases detectPitch_cases st buffer hinv with ⟨-, hd⟩ | ⟨g, -, hg1, hg2, hd⟩
  · rw [hd] at hf
    cases hf
  · rw [hd] at hf
    obtain ⟨hb1, hb2⟩ := smoothOf_bounds st g hinv hg1 hg2
    have : smoothOf st g = f := by
      simpa using hf
    rw [← this]
    exact ⟨hb1, hb2⟩

/-- C2: when the stored smoothed pitch is `some l` and the YIN stages
produce a plausible raw estimate `f`, `detectPitch` returns exactly
`l * α + f * (1 - α)` and stores that value as the new
`lastPitch` — a single IIR step over the previously stored smoothed
value (the wrapper's second smoothing step is the identity on the
freshly stored value). -/
theorem detectPitch_smoothing_iir (st : DetState) (buffer : List ℝ)
    (l f : ℝ) (hinv : detInv st) (hl : st.lastPitch = some l)
    (hraw : rawPitch st buffer = some f) :
    (detectPitch st buffer).1 =
        some (l * st.smoothingFactor + f * (1 - st.smoothingFactor)) ∧
      (detectPitch st buffer).2.lastPitch =
        some (l * st.smoothingFactor + f * (1 - st.smoothingFactor)) := by
  rcases detectPitch_cases st buffer hinv with ⟨hnone, -⟩ | ⟨g, hrg, -, -, hd⟩
  · rw [hraw] at hnone
    cases hnone
  · rw [hraw] at hrg
    have hgf : g = f := by
      injection hrg.symm
    subst hgf
    have hs : smoothOf st g = l * st.smoothingFactor + g * (1 - st.smoothingFactor) := by
      unfold smoothOf
      rw [hl]
    rw [hd, ← hs]
    exact ⟨rfl, rfl⟩

/-- C4: under the reachability invariant, whenever `detectPitch`
reports unvoiced (`null`), the stored `lastPitch` is unchanged, so a
voiced frame after a gap resumes smoothing from the pre-gap value. -/
theorem detectPitch_unvoiced_preserves_last (st : DetState)
    (buffer : List ℝ) (hinv : detInv st)
    (hn : (detectPitch st buffer).1 = none) :
    (detectPitch st buffer).2.lastPitch = st.lastPitch := by
  rcases detectPitch_cases st buffer hinv with ⟨-, hd⟩ | ⟨g, -, -, -, hd⟩
  · rw [hd]
  · rw [hd] at hn
    cases hn

/-! ### Concrete evaluations of the detector pipeline -/

lemma stEx_inv : detInv stEx := by
  refine ⟨?_, by norm_num [stEx], by norm_num [stEx]⟩
  intro v hv
  have hv100 : v = 100 := by
    have := hv
    simp only [stEx, Option.some.injEq] at this
    exact this.symm
  rw [hv100]
  norm_num

lemma diff_bufEx : differenceFunction bufEx = [0, 16, 0, 16] := by
  unfold differenceFunction bufEx
  norm_num [List.range_succ, Finset.sum_range_succ, List.getD_cons_zero,
    List.getD_cons_succ]

lemma cmndf_bufEx : cmndf [(0 : ℝ), 16, 0, 16] = [1, 1, 0, 3 / 2] := by
  unfold cmndf
  norm_num [List.range_succ, List.getD_cons_zero, List.getD_cons_succ,
    Finset.sum_Icc_succ_top, Finset.Icc_self, Finset.sum_singleton]

lemma thr_bufEx : absoluteThreshold stEx [(1 : ℝ), 1, 0, 3 / 2] = some 2 := by
  unfold absoluteThreshold
  dsimp only
  have hfloor : (⌊stEx.sampleRate / 1000⌋).toNat = 2 := by
    have h2 : stEx.sampleRate / 1000 = ((2 : ℤ) : ℝ) := by
      norm_num [stEx]
    rw [h2, Int.floor_intCast]
    rfl
  rw [hfloor]
  have hlen : ([(1 : ℝ), 1, 0, 3 / 2].length - 2) = 2 := by simp
  rw [hlen]
  have hrange : List.range' 2 2 = [2, 3] := by rfl
  rw [hrange]
  have hfind : List.find?
      (fun tau => decide ([(1 : ℝ), 1, 0, 3 / 2].getD tau 0 < stEx.threshold))
      [2, 3] = some 2 := by
    apply List.find?_cons_of_pos
    rw [decide_eq_true_eq]
    norm_num [List.getD_cons_zero, List.getD_cons_succ, stEx]
  rw [hfind]
  have hloc : localMin [(1 : ℝ), 1, 0, 3 / 2] 2 = 2 := by
    rw [localMin, dif_neg]
    rintro ⟨-, h⟩
    rw [List.getD_cons_succ, List.getD_cons_succ, List.getD_cons_succ,
      List.getD_cons_zero, List.getD_cons_succ, List.getD_cons_succ,
      List.getD_cons_zero] at h
    norm_num at h
  dsimp only
  rw [hloc]

lemma para_bufEx : parabolicInterpolation [(1 : ℝ), 1, 0, 3 / 2] 2 = 19 / 10 := by
  unfold parabolicInterpolation
  rw [if_neg (by norm_num)]
  norm_num [List.getD_cons_zero, List.getD_cons_succ]

lemma raw_bufEx : rawPitch stEx bufEx = some (20000 / 19) := by
  unfold rawPitch
  rw [diff_bufEx, cmndf_bufEx]
  dsimp only
  rw [thr_bufEx]
  dsimp only
  rw [para_bufEx, if_neg (by norm_num [stEx])]
  have : stEx.sampleRate / (19 / 10) = 20000 / 19 := by
    norm_num [stEx]
  rw [this]

lemma detect_bufEx : detectPitch stEx bufEx =
    (some (14570 / 19), { stEx with lastPitch := some (14570 / 19) }) := by
  rcases detectPitch_cases stEx bufEx stEx_inv with ⟨hnone, -⟩ | ⟨g, hrg, -, -, hd⟩
  · rw [raw_bufEx] at hnone
    cases hnone
  · rw [raw_bufEx] at hrg
    have hg : g = 20000 / 19 := by
      injection hrg.symm
    subst hg
    rw [hd]
    have hs : smoothOf stEx (20000 / 19) = 14570 / 19 := by
      unfold smoothOf stEx
      norm_num
    rw [hs]

lemma detect_bufNone : detectPitch stEx bufNone = (none, stEx) := by
  have habs : absoluteThreshold stEx (cmndf (differenceFunction bufNone)) =
      none := by
    unfold absoluteThreshold
    have hfloor : (⌊stEx.sampleRate / 1000⌋).toNat = 2 := by
      have h2 : stEx.sampleRate / 1000 = ((2 : ℤ) : ℝ) := by
        norm_num [stEx]
      rw [h2, Int.floor_intCast]
      rfl
    have hlen : (cmndf (differenceFunction bufNone)).length = 2 := by
      simp [cmndf, differenceFunction, bufNone]
    rw [hfloor, hlen]
    rfl
  unfold detectPitch detectPitchYIN
  dsimp only
  rw [habs]

/-- Witness for C2: on the period-2 buffer with stored pitch 100 Hz,
the raw estimate is 20000/19 Hz and `detectPitch` returns and stores
exactly `100 * 0.3 + (20000/19) * 0.7 = 14570/19`. -/
theorem detectPitch_smoothing_iir_witness :
    (detectPitch stEx bufEx).1 = some (14570 / 19) ∧
      (detectPitch stEx bufEx).2.lastPitch = some (14570 / 19) := by
  have h := detectPitch_smoothing_iir stEx bufEx 100 (20000 / 19)
    stEx_inv rfl raw_bufEx
  have harith : (100 : ℝ) * stEx.smoothingFactor +
      20000 / 19 * (1 - stEx.smoothingFactor) = 14570 / 19 := by
    norm_num [stEx]
  rw [harith] at h
  exact h

/-- Witness for C3: the concrete result 14570/19 Hz lies in [50, 2000]. -/
theorem detectPitch_plausible_range_witness :
    (detectPitch stEx bufEx).1 = some (14570 / 19) ∧
      (50 : ℝ) ≤ 14570 / 19 ∧ (14570 / 19 : ℝ) ≤ 2000 := by
  have h1 : (detectPitch stEx bufEx).1 = some (14570 / 19) := by
    rw [detect_bufEx]
  exact ⟨h1,
    detectPitch_plausible_range stEx bufEx stEx_inv (14570 / 19) h1⟩

/-- Witness for C4: on the short buffer no pitch is detected and the
stored pitch 100 Hz is untouched. -/
theorem detectPitch_unvoiced_preserves_last_witness :
    (detectPitch stEx bufNone).1 = none ∧
      (detectPitch stEx bufNone).2.lastPitch = stEx.lastPitch := by
  have h1 : (detectPitch stEx bufNone).1 = none := by
    rw [detect_bufNone]
  exact ⟨h1,
    detectPitch_unvoiced_preserves_last stEx bufNone stEx_inv h1⟩

end SeePitch

end
